import Mathlib

set_option maxHeartbeats 1000000

/- Shallow embedding of src/general/ReadRoutinesModifiedCloud.py:
   the stencil extractor GetInputs, the region bounds and per-region
   input/target extraction of ReadMITGCM, the temporal splitter, the
   shuffle step and normalise_data.  Arrays are modelled as a size
   vector plus a total index function (out-of-range reads never occur
   in the theorems below at relevant indices); float values are exact
   rationals except in the normaliser, where the population standard
   deviation needs a real square root. -/

/-- A 3-axis array (depth z, latitude y, longitude x): sizes plus an index
function, modelling a numpy/xarray 3d slice. -/
structure Arr3 (α : Type) where
  z : Nat
  y : Nat
  x : Nat
  val : Nat → Nat → Nat → α

/-- A 2-axis array (latitude y, longitude x), used for the surface-height
field Eta. -/
structure Arr2 (α : Type) where
  y : Nat
  x : Nat
  val : Nat → Nat → α

/-- A 1-axis coordinate array (lat, lon or depth values). -/
structure Coord1 where
  len : Nat
  val : Nat → ℚ

/-- A 4-axis block (z, y, x, feature): the intermediate shape inside
GetInputs after view_as_windows followed by the reshape to
(shape 0, shape 1, shape 2, minus 1). -/
structure Block (α : Type) where
  nz : Nat
  ny : Nat
  nx : Nat
  nf : Nat
  val : Nat → Nat → Nat → Nat → α

/-- A 2-axis sample matrix (no_samples, no_features). -/
structure NMat (α : Type) where
  rows : Nat
  cols : Nat
  val : Nat → Nat → α

/-- The run_vars configuration dictionary of the source, with the keys the
source reads. -/
structure RunVars where
  dimension : Nat
  sal : Bool
  current : Bool
  bolus_vel : Bool
  density : Bool
  eta : Bool
  lat : Bool
  lon : Bool
  dep : Bool
  poly_degree : Nat
  StepSize : Nat

/-- view_as_windows(A, (1, 3, 3), 1) followed by the reshape flattening each
window to 9 features: window (k, j, i) holds A at rows j..j+2, columns
i..i+2 of depth layer k, flattened row-major (dy = f / 3, dx = f mod 3). -/
def view_as_windows_133 (A : Arr3 ℚ) : Block ℚ :=
  ⟨A.z, A.y - 2, A.x - 2, 9, fun k j i f => A.val k (j + f / 3) (i + f % 3)⟩

/-- view_as_windows(A, (3, 3, 3), 1) followed by the reshape flattening each
window to 27 features (dz = f / 9, dy = f / 3 mod 3, dx = f mod 3). -/
def view_as_windows_333 (A : Arr3 ℚ) : Block ℚ :=
  ⟨A.z - 2, A.y - 2, A.x - 2, 27,
   fun k j i f => A.val (k + f / 9) (j + f / 3 % 3) (i + f % 3)⟩

/-- view_as_windows(Eta, (3, 3), 1) followed by np.tile over z_subsize depth
layers and the flattening reshape: the Eta stencil is replicated across all
depth layers. -/
def view_as_windows_33 (E : Arr2 ℚ) (z_subsize : Nat) : Block ℚ :=
  ⟨z_subsize, E.y - 2, E.x - 2, 9, fun _ j i f => E.val (j + f / 3) (i + f % 3)⟩

/-- np.concatenate((a, b), axis = -1): feature columns of b appended after
those of a; leading axes taken from a. -/
def hconcat (a b : Block ℚ) : Block ℚ :=
  ⟨a.nz, a.ny, a.nx, a.nf + b.nf,
   fun k j i f => if f < a.nf then a.val k j i f else b.val k j i (f - a.nf)⟩

/-- The lat feature column: np.tile over depth and longitude makes a
(z_subsize, len lat, x_subsize, 1) block whose value varies only with j. -/
def latBlock (lat : Coord1) (z_subsize x_subsize : Nat) : Block ℚ :=
  ⟨z_subsize, lat.len, x_subsize, 1, fun _ j _ _ => lat.val j⟩

/-- The lon feature column: a (z_subsize, y_subsize, len lon, 1) block whose
value varies only with i. -/
def lonBlock (lon : Coord1) (z_subsize y_subsize : Nat) : Block ℚ :=
  ⟨z_subsize, y_subsize, lon.len, 1, fun _ _ i _ => lon.val i⟩

/-- The depth feature column: a (len depth, y_subsize, x_subsize, 1) block
whose value varies only with k. -/
def depBlock (depth : Coord1) (y_subsize x_subsize : Nat) : Block ℚ :=
  ⟨depth.len, y_subsize, x_subsize, 1, fun k _ _ _ => depth.val k⟩

/-- inputs.reshape((z_subsize * y_subsize * x_subsize, inputs.shape[-1])):
row r is the (z, y, x) cell at row-major position r. -/
def reshapeRows (z_subsize y_subsize x_subsize : Nat) (b : Block ℚ) : NMat ℚ :=
  ⟨z_subsize * y_subsize * x_subsize, b.nf,
   fun r c => b.val (r / (y_subsize * x_subsize)) (r / x_subsize % y_subsize)
     (r % x_subsize) c⟩

/-- All nonempty index subsets of the n feature columns with at most d
elements, the monomial index sets of an interaction-only polynomial basis. -/
def polySubsets (n d : Nat) : List (List Nat) :=
  (List.range n).sublists.filter (fun l => 1 ≤ l.length && l.length ≤ d)

/-- Modelled from the spec: the external sklearn PolynomialFeatures
transformer with interaction_only = True and include_bias = False, applied
when poly_degree exceeds 1.  Out of scope for the core per the spec; only
its row-preserving shape matters to the claims, all of which take
poly_degree = 1. -/
def polynomial_features (d : Nat) (M : NMat ℚ) : NMat ℚ :=
  ⟨M.rows, (polySubsets M.cols d).length,
   fun r c => ((polySubsets M.cols d).getD c []).foldl
     (fun acc i => acc * M.val r i) 1⟩

/-- The tail of GetInputs shared by the dimension-2 and dimension-3
branches: the optional eta window block and the lat/lon/dep coordinate
columns are concatenated, the block is reshaped to
(no_samples, no_features), and polynomial expansion is applied when
poly_degree exceeds 1. -/
def addExtras (run_vars : RunVars) (z_subsize y_subsize x_subsize : Nat)
    (Eta : Arr2 ℚ) (lat lon depth : Coord1) (inputs0 : Block ℚ) : NMat ℚ :=
  let inputs := if run_vars.eta then
    hconcat inputs0 (view_as_windows_33 Eta z_subsize) else inputs0
  let inputs := if run_vars.lat then
    hconcat inputs (latBlock lat z_subsize x_subsize) else inputs
  let inputs := if run_vars.lon then
    hconcat inputs (lonBlock lon z_subsize y_subsize) else inputs
  let inputs := if run_vars.dep then
    hconcat inputs (depBlock depth y_subsize x_subsize) else inputs
  let flat := reshapeRows z_subsize y_subsize x_subsize inputs
  if run_vars.poly_degree > 1 then
    polynomial_features run_vars.poly_degree flat else flat

/-- GetInputs of the source: builds the (no_samples, no_features) input
array for one sub-region slice.  The dimension-2 branch windows every
enabled 3d field with a (1, 3, 3) window, the dimension-3 branch with a
(3, 3, 3) window; any other dimension prints an error and leaves both
z_subsize and inputs unassigned, so every continuation of the source
raises UnboundLocalError: the call never returns an array, modelled here
as none. -/
def GetInputs (run_vars : RunVars)
    (Temp Sal U V Kwx Kwy Kwz dns : Arr3 ℚ) (Eta : Arr2 ℚ)
    (lat lon depth : Coord1) : Option (NMat ℚ) :=
  let x_subsize := Temp.x - 2
  let y_subsize := Temp.y - 2
  if run_vars.dimension = 2 then
    let z_subsize := Temp.z
    let inputs := view_as_windows_133 Temp
    let inputs := if run_vars.sal then
      hconcat inputs (view_as_windows_133 Sal) else inputs
    let inputs := if run_vars.current then
      hconcat (hconcat inputs (view_as_windows_133 U))
        (view_as_windows_133 V) else inputs
    let inputs := if run_vars.bolus_vel then
      hconcat (hconcat (hconcat inputs (view_as_windows_133 Kwx))
        (view_as_windows_133 Kwy)) (view_as_windows_133 Kwz) else inputs
    let inputs := if run_vars.density then
      hconcat inputs (view_as_windows_133 dns) else inputs
    some (addExtras run_vars z_subsize y_subsize x_subsize Eta lat lon depth
      inputs)
  else if run_vars.dimension = 3 then
    let z_subsize := Temp.z - 2
    let inputs := view_as_windows_333 Temp
    let inputs := if run_vars.sal then
      hconcat inputs (view_as_windows_333 Sal) else inputs
    let inputs := if run_vars.current then
      hconcat (hconcat inputs (view_as_windows_333 U))
        (view_as_windows_333 V) else inputs
    let inputs := if run_vars.bolus_vel then
      hconcat (hconcat (hconcat inputs (view_as_windows_333 Kwx))
        (view_as_windows_333 Kwy)) (view_as_windows_333 Kwz) else inputs
    let inputs := if run_vars.density then
      hconcat inputs (view_as_windows_333 dns) else inputs
    some (addExtras run_vars z_subsize y_subsize x_subsize Eta lat lon depth
      inputs)
  else
    none

/- Region bounds of ReadMITGCM.  Regions 2 and 3 state their x bounds in
the coordinates of the column-shifted copies of the fields (the source
notes that, after the west shift, the zero column is what was at the
minus-one column, and after the east shift, the minus-one column is what
was the zero column). -/

def x_lw_1 : Nat := 1
def x_up_1 (x_size : Nat) : Nat := x_size - 2
def y_lw_1 : Nat := 1
def y_up_1 (y_size : Nat) : Nat := y_size - 3
def z_lw_1 : Nat := 1
def z_up_1 (z_size : Nat) : Nat := z_size - 1

def x_lw_2 : Nat := 1
def x_up_2 : Nat := 2
def y_lw_2 : Nat := 1
def y_up_2 : Nat := 15
def z_lw_2 : Nat := 1
def z_up_2 : Nat := 31

def x_lw_3 (x_size : Nat) : Nat := x_size - 3
def x_up_3 (x_size : Nat) : Nat := x_size - 1
def y_lw_3 : Nat := 1
def y_up_3 : Nat := 15
def z_lw_3 : Nat := 1
def z_up_3 : Nat := 31

/-- Integer-range slice A[zl:zu, yl:yu, xl:xu] of a 3-axis array. -/
def slice3 (A : Arr3 ℚ) (zl zu yl yu xl xu : Nat) : Arr3 ℚ :=
  ⟨zu - zl, yu - yl, xu - xl, fun k j i => A.val (zl + k) (yl + j) (xl + i)⟩

/-- Integer-range slice E[yl:yu, xl:xu] of a 2-axis array. -/
def slice2 (E : Arr2 ℚ) (yl yu xl xu : Nat) : Arr2 ℚ :=
  ⟨yu - yl, xu - xl, fun j i => E.val (yl + j) (xl + i)⟩

/-- Integer-range slice c[a:b] of a coordinate array. -/
def sliceCoord (c : Coord1) (a b : Nat) : Coord1 :=
  ⟨b - a, fun i => c.val (a + i)⟩

/-- xr.concat([A[..., -1:], A[..., :-1]], dim = X): the east-most column is
moved to the west side, so shifted column 0 is original column x - 1 and
shifted column i (i ≥ 1) is original column i - 1. -/
def shiftWestArr3 (A : Arr3 ℚ) : Arr3 ℚ :=
  ⟨A.z, A.y, A.x,
   fun k j i => if i = 0 then A.val k j (A.x - 1) else A.val k j (i - 1)⟩

/-- The same west shift for the 2-axis Eta field. -/
def shiftWestArr2 (E : Arr2 ℚ) : Arr2 ℚ :=
  ⟨E.y, E.x, fun j i => if i = 0 then E.val j (E.x - 1) else E.val j (i - 1)⟩

/-- The same west shift for the lon coordinate array. -/
def shiftWestCoord (c : Coord1) : Coord1 :=
  ⟨c.len, fun i => if i = 0 then c.val (c.len - 1) else c.val (i - 1)⟩

/-- xr.concat([A[..., 1:], A[..., :1]], dim = X): the west-most column is
moved to the east side, so shifted column i (i < x - 1) is original column
i + 1 and shifted column x - 1 is original column 0. -/
def shiftEastArr3 (A : Arr3 ℚ) : Arr3 ℚ :=
  ⟨A.z, A.y, A.x,
   fun k j i => if i = A.x - 1 then A.val k j 0 else A.val k j (i + 1)⟩

/-- The same east shift for the 2-axis Eta field. -/
def shiftEastArr2 (E : Arr2 ℚ) : Arr2 ℚ :=
  ⟨E.y, E.x,
   fun j i => if i = E.x - 1 then E.val j 0 else E.val j (i + 1)⟩

/-- The same east shift for the lon coordinate array. -/
def shiftEastCoord (c : Coord1) : Coord1 :=
  ⟨c.len, fun i => if i = c.len - 1 then c.val 0 else c.val (i + 1)⟩

/-- The time-indexed fields ReadMITGCM reads from the (subsampled) dataset,
the density file and the coordinate arrays. -/
structure OceanData where
  T : Nat → Arr3 ℚ
  S : Nat → Arr3 ℚ
  U : Nat → Arr3 ℚ
  V : Nat → Arr3 ℚ
  Kwx : Nat → Arr3 ℚ
  Kwy : Nat → Arr3 ℚ
  Kwz : Nat → Arr3 ℚ
  density : Nat → Arr3 ℚ
  Eta : Nat → Arr2 ℚ
  lat : Coord1
  lon : Coord1
  depth : Coord1

/-- The west-shifted (region 2) copies da_T2, da_S2, ..., da_Eta2, da_lon2
and density2 of the fields; lat and depth are not shifted in the source. -/
def westShifted (d : OceanData) : OceanData :=
  ⟨fun t => shiftWestArr3 (d.T t), fun t => shiftWestArr3 (d.S t),
   fun t => shiftWestArr3 (d.U t), fun t => shiftWestArr3 (d.V t),
   fun t => shiftWestArr3 (d.Kwx t), fun t => shiftWestArr3 (d.Kwy t),
   fun t => shiftWestArr3 (d.Kwz t), fun t => shiftWestArr3 (d.density t),
   fun t => shiftWestArr2 (d.Eta t), d.lat, shiftWestCoord d.lon, d.depth⟩

/-- The east-shifted (region 3) copies da_T3, da_S3, ..., da_Eta3, da_lon3
and density3. -/
def eastShifted (d : OceanData) : OceanData :=
  ⟨fun t => shiftEastArr3 (d.T t), fun t => shiftEastArr3 (d.S t),
   fun t => shiftEastArr3 (d.U t), fun t => shiftEastArr3 (d.V t),
   fun t => shiftEastArr3 (d.Kwx t), fun t => shiftEastArr3 (d.Kwy t),
   fun t => shiftEastArr3 (d.Kwz t), fun t => shiftEastArr3 (d.density t),
   fun t => shiftEastArr2 (d.Eta t), d.lat, shiftEastCoord d.lon, d.depth⟩

/-- The per-region GetInputs call of ReadMITGCM: every field is sliced with
a one-cell halo beyond the forecast bounds in y and x (and in z only for
dimension 3), the coordinates without halo; an invalid dimension leaves
inputs unassigned in the source (the branches are if/elif with no else),
modelled as none. -/
def inputs_region (run_vars : RunVars) (d : OceanData)
    (t z_lw z_up y_lw y_up x_lw x_up : Nat) : Option (NMat ℚ) :=
  if run_vars.dimension = 2 then
    GetInputs run_vars
      (slice3 (d.T t) z_lw z_up (y_lw - 1) (y_up + 1) (x_lw - 1) (x_up + 1))
      (slice3 (d.S t) z_lw z_up (y_lw - 1) (y_up + 1) (x_lw - 1) (x_up + 1))
      (slice3 (d.U t) z_lw z_up (y_lw - 1) (y_up + 1) (x_lw - 1) (x_up + 1))
      (slice3 (d.V t) z_lw z_up (y_lw - 1) (y_up + 1) (x_lw - 1) (x_up + 1))
      (slice3 (d.Kwx t) z_lw z_up (y_lw - 1) (y_up + 1) (x_lw - 1) (x_up + 1))
      (slice3 (d.Kwy t) z_lw z_up (y_lw - 1) (y_up + 1) (x_lw - 1) (x_up + 1))
      (slice3 (d.Kwz t) z_lw z_up (y_lw - 1) (y_up + 1) (x_lw - 1) (x_up + 1))
      (slice3 (d.density t) z_lw z_up (y_lw - 1) (y_up + 1) (x_lw - 1)
        (x_up + 1))
      (slice2 (d.Eta t) (y_lw - 1) (y_up + 1) (x_lw - 1) (x_up + 1))
      (sliceCoord d.lat y_lw y_up)
      (sliceCoord d.lon x_lw x_up)
      (sliceCoord d.depth z_lw z_up)
  else if run_vars.dimension = 3 then
    GetInputs run_vars
      (slice3 (d.T t) (z_lw - 1) (z_up + 1) (y_lw - 1) (y_up + 1) (x_lw - 1)
        (x_up + 1))
      (slice3 (d.S t) (z_lw - 1) (z_up + 1) (y_lw - 1) (y_up + 1) (x_lw - 1)
        (x_up + 1))
      (slice3 (d.U t) (z_lw - 1) (z_up + 1) (y_lw - 1) (y_up + 1) (x_lw - 1)
        (x_up + 1))
      (slice3 (d.V t) (z_lw - 1) (z_up + 1) (y_lw - 1) (y_up + 1) (x_lw - 1)
        (x_up + 1))
      (slice3 (d.Kwx t) (z_lw - 1) (z_up + 1) (y_lw - 1) (y_up + 1)
        (x_lw - 1) (x_up + 1))
      (slice3 (d.Kwy t) (z_lw - 1) (z_up + 1) (y_lw - 1) (y_up + 1)
        (x_lw - 1) (x_up + 1))
      (slice3 (d.Kwz t) (z_lw - 1) (z_up + 1) (y_lw - 1) (y_up + 1)
        (x_lw - 1) (x_up + 1))
      (slice3 (d.density t) (z_lw - 1) (z_up + 1) (y_lw - 1) (y_up + 1)
        (x_lw - 1) (x_up + 1))
      (slice2 (d.Eta t) (y_lw - 1) (y_up + 1) (x_lw - 1) (x_up + 1))
      (sliceCoord d.lat y_lw y_up)
      (sliceCoord d.lon x_lw x_up)
      (sliceCoord d.depth z_lw z_up)
  else none

/-- The region-1 (interior) inputs of one timestep, on the unshifted
fields. -/
def inputs_1 (run_vars : RunVars) (d : OceanData)
    (z_size y_size x_size t : Nat) : Option (NMat ℚ) :=
  inputs_region run_vars d t z_lw_1 (z_up_1 z_size) y_lw_1 (y_up_1 y_size)
    x_lw_1 (x_up_1 x_size)

/-- The region-2 (west wrap) inputs of one timestep, on the west-shifted
fields. -/
def inputs_2 (run_vars : RunVars) (d : OceanData) (t : Nat) :
    Option (NMat ℚ) :=
  inputs_region run_vars (westShifted d) t z_lw_2 z_up_2 y_lw_2 y_up_2
    x_lw_2 x_up_2

/-- The region-3 (east wrap) inputs of one timestep, on the east-shifted
fields. -/
def inputs_3 (run_vars : RunVars) (d : OceanData) (x_size t : Nat) :
    Option (NMat ℚ) :=
  inputs_region run_vars (eastShifted d) t z_lw_3 z_up_3 y_lw_3 y_up_3
    (x_lw_3 x_size) (x_up_3 x_size)

/-- Pointwise difference of two co-shaped 3-axis arrays. -/
def sub3 (a b : Arr3 ℚ) : Arr3 ℚ :=
  ⟨a.z, a.y, a.x, fun k j i => a.val k j i - b.val k j i⟩

/-- A.data.reshape((-1, 1)): the 3-axis array flattened row-major into a
single sample column. -/
def reshapeCol (A : Arr3 ℚ) : NMat ℚ :=
  ⟨A.z * A.y * A.x, 1,
   fun r _ => A.val (r / (A.y * A.x)) (r / A.x % A.y) (r % A.x)⟩

/-- The per-region target block of ReadMITGCM: the field at t + StepSize
minus the field at t over the slice z_lw:z_up, y_lw:y_up, x_lw:x_up,
reshaped to a column. -/
def outputs_DelT_region (da_T : Nat → Arr3 ℚ)
    (StepSize t z_lw z_up y_lw y_up x_lw x_up : Nat) : NMat ℚ :=
  reshapeCol (sub3
    (slice3 (da_T (t + StepSize)) z_lw z_up y_lw y_up x_lw x_up)
    (slice3 (da_T t) z_lw z_up y_lw y_up x_lw x_up))

/-- outputs_2_DelT of the source: the region-2 target, sliced from the
UNSHIFTED temperature field da_T at the region-2 bounds (which are stated
in the shifted frame). -/
def outputs_2_DelT (d : OceanData) (StepSize t : Nat) : NMat ℚ :=
  outputs_DelT_region d.T StepSize t z_lw_2 z_up_2 y_lw_2 y_up_2 x_lw_2
    x_up_2

/-- outputs_3_DelT of the source: the region-3 target, likewise sliced from
the unshifted temperature field at the shifted-frame bounds. -/
def outputs_3_DelT (d : OceanData) (StepSize t x_size : Nat) : NMat ℚ :=
  outputs_DelT_region d.T StepSize t z_lw_3 z_up_3 y_lw_3 y_up_3
    (x_lw_3 x_size) (x_up_3 x_size)

/- Temporal splitter of ReadMITGCM. -/

def subsample_rate : Nat := 200
def start : Nat := 0
def data_end_index : Nat := 7200

/-- int(data_end_index * trainval_split_ratio) with the default ratio 0.7;
both the exact value 7200 * 7 / 10 and its IEEE-double evaluation are
5040. -/
def trainval_split : Nat := data_end_index * 7 / 10

/-- int(data_end_index * valtest_split_ratio) with the default ratio 0.9;
the value is 6480. -/
def valtest_split : Nat := data_end_index * 9 / 10

/-- Python range(a, b, s) for a positive step s, as the list of its
elements. -/
def rangeStep (a b s : Nat) : List Nat :=
  (List.range ((b - a + s - 1) / s)).map (fun k => a + s * k)

def trainval_range : List Nat := rangeStep start trainval_split subsample_rate
def valtest_range : List Nat := rangeStep trainval_split valtest_split subsample_rate
def test_range : List Nat := rangeStep valtest_split data_end_index subsample_rate

/-- chain(trainval_range, valtest_range, test_range). -/
def full_range : List Nat := trainval_range ++ valtest_range ++ test_range

/-- sample_times: the (t, t + 1) pairs over the chained ranges. -/
def sample_times : List (Nat × Nat) := full_range.map (fun t => (t, t + 1))

/-- np.array(sample_times).flatten(): the time axis of the subsampled
dataset after ds.isel; position i of this list is the original time index
of subsampled time index i. -/
def sample_times_flat : List Nat :=
  (sample_times.map (fun p => [p.1, p.2])).flatten

/-- The loop indices range(len(trainval_range)) of the training loop; the
loop indexes the subsampled dataset directly with these. -/
def train_loop_indices : List Nat := List.range trainval_range.length

/- Forecast-cell sets of the three regions, in original (unshifted)
longitude coordinates.  A region's x bounds are stated in its own shifted
frame; shifted column c of the west-shifted arrays reads original column
(c + x_size - 1) mod x_size and shifted column c of the east-shifted
arrays reads original column (c + 1) mod x_size (lemmas
shiftWestArr3_val and shiftEastArr3_val below), so the cell a region
forecasts for (the center of its input stencil) at shifted column c is
that original column. -/

/-- Cell (z, y, x) is forecast by region 1 (no shift, original
coordinates). -/
def inRegion1 (x_size y_size z_size z y x : Nat) : Prop :=
  z_lw_1 ≤ z ∧ z < z_up_1 z_size ∧ y_lw_1 ≤ y ∧ y < y_up_1 y_size ∧
    x_lw_1 ≤ x ∧ x < x_up_1 x_size

/-- Cell (z, y, x) is forecast by region 2: x is the original column under
some shifted column c in the region-2 x bounds. -/
def inRegion2 (x_size z y x : Nat) : Prop :=
  z_lw_2 ≤ z ∧ z < z_up_2 ∧ y_lw_2 ≤ y ∧ y < y_up_2 ∧
    ∃ c, x_lw_2 ≤ c ∧ c < x_up_2 ∧ x = (c + x_size - 1) % x_size

/-- Cell (z, y, x) is forecast by region 3: x is the original column under
some shifted column c in the region-3 x bounds. -/
def inRegion3 (x_size z y x : Nat) : Prop :=
  z_lw_3 ≤ z ∧ z < z_up_3 ∧ y_lw_3 ≤ y ∧ y < y_up_3 ∧
    ∃ c, x_lw_3 x_size ≤ c ∧ c < x_up_3 x_size ∧ x = (c + 1) % x_size

/-- Spec-side definition for the refinement claim on the periodic seam: the
3-by-3 stencil read directly off an unshifted field with periodic
wraparound indexing along the longitude axis, with window top-left corner
(j, i) (so centered at row j + 1 and, periodically, at column i + 1 of the
shifted frame, which is original column i). -/
def periodicStencilVal (A : Arr3 ℚ) (k j i f : Nat) : ℚ :=
  A.val k (j + f / 3) ((i + A.x - 1 + f % 3) % A.x)

/- The normaliser.  Floats are modelled as exact reals here because the
population standard deviation takes a square root. -/

/-- np.mean of a one-dimensional array. -/
noncomputable def np_mean (xs : List ℝ) : ℝ := xs.sum / xs.length

/-- np.std of a one-dimensional array: the population standard deviation,
the square root of the mean squared deviation from the mean. -/
noncomputable def np_std (xs : List ℝ) : ℝ :=
  Real.sqrt (np_mean (xs.map (fun x => (x - np_mean xs) ^ 2)))

/-- The five return values of normalise_data. -/
structure NormaliseResult where
  norm_train : List ℝ
  norm_val : List ℝ
  norm_test : List ℝ
  train_mean : ℝ
  train_std : ℝ

/-- normalise_data of the source: mean and population standard deviation
are computed from train alone and the same affine transform is applied to
all three splits. -/
noncomputable def normalise_data (train val test : List ℝ) :
    NormaliseResult :=
  let train_mean := np_mean train
  let train_std := np_std train
  ⟨train.map (fun x => (x - train_mean) / train_std),
   val.map (fun x => (x - train_mean) / train_std),
   test.map (fun x => (x - train_mean) / train_std),
   train_mean, train_std⟩

/- The shuffle step. -/

/-- The per-split arrays reordered together by one ordering (the source
also reorders outputs_Temp, orig_Temp and clim_Temp with the same
ordering; one target column stands for them all here). -/
structure SplitArrays where
  inputs : List (List ℚ)
  outputs_DelT : List ℚ

/-- numpy fancy indexing xs[ordering]: the rows of xs at the positions
listed in ordering. -/
def applyOrdering {α : Type} (xs : List α) (ord : List Nat) : List α :=
  ord.filterMap (fun i => xs[i]?)

/-- The shuffle step of ReadMITGCM.  The generator g models the global
numpy RNG: g state n returns the permutation np.random.permutation(n)
drawn at that state together with the advanced state.  np.random.seed(5)
resets the global state to the fixed state 5, discarding the ambient
state σ the program had before the call, exactly as the source does; then
one permutation is drawn per split and applied to that split's arrays
only. -/
def randomiseOrder (g : Nat → Nat → List Nat × Nat) (σ : Nat)
    (tr val te : SplitArrays) : SplitArrays × SplitArrays × SplitArrays :=
  let _ := σ
  let seeded := 5
  let p1 := g seeded tr.inputs.length
  let ordering_tr := p1.1
  let p2 := g p1.2 val.inputs.length
  let ordering_val := p2.1
  let p3 := g p2.2 te.inputs.length
  let ordering_te := p3.1
  (⟨applyOrdering tr.inputs ordering_tr,
    applyOrdering tr.outputs_DelT ordering_tr⟩,
   ⟨applyOrdering val.inputs ordering_val,
    applyOrdering val.outputs_DelT ordering_val⟩,
   ⟨applyOrdering te.inputs ordering_te,
    applyOrdering te.outputs_DelT ordering_te⟩)

/- Spec-side feature-count formula (claim C5): stencil volume times the
number of enabled physical fields, plus 9 for eta, plus one per enabled
coordinate. -/

/-- The number of enabled 3-axis physical fields (temperature always,
salinity, the two current components, the three bolus velocities,
density). -/
def numFields (rv : RunVars) : Nat :=
  1 + (if rv.sal then 1 else 0) + (if rv.current then 2 else 0)
    + (if rv.bolus_vel then 3 else 0) + (if rv.density then 1 else 0)

/-- The feature-vector length the spec promises for poly_degree 1. -/
def featureCount (rv : RunVars) : Nat :=
  (if rv.dimension = 2 then 9 else 27) * numFields rv
    + (if rv.eta then 9 else 0) + (if rv.lat then 1 else 0)
    + (if rv.lon then 1 else 0) + (if rv.dep then 1 else 0)

/- Concrete instances used by the counterexamples and witnesses. -/

/-- A dimension-2 configuration with only temperature enabled. -/
def rvTempOnly : RunVars :=
  ⟨2, false, false, false, false, false, false, false, false, 1, 1⟩

/-- A dimension-2 configuration with every optional feature group
enabled. -/
def rvAll2d : RunVars :=
  ⟨2, true, true, true, true, true, true, true, true, 1, 1⟩

/-- A configuration whose dimension is neither 2 nor 3. -/
def rvDim4 : RunVars :=
  ⟨4, false, false, false, false, false, false, false, false, 1, 1⟩

/-- An all-zero 3-axis array of the smallest grid the run accepts in
z and y. -/
def zeroArr3 : Arr3 ℚ := ⟨34, 18, 8, fun _ _ _ => 0⟩

/-- An all-zero 2-axis array. -/
def zeroArr2 : Arr2 ℚ := ⟨18, 8, fun _ _ => 0⟩

/-- An all-zero coordinate array. -/
def zeroCoord : Coord1 := ⟨34, fun _ => 0⟩

/-- An all-zero dataset on a 34 by 18 by 8 grid. -/
def zeroOcean : OceanData :=
  ⟨fun _ => zeroArr3, fun _ => zeroArr3, fun _ => zeroArr3,
   fun _ => zeroArr3, fun _ => zeroArr3, fun _ => zeroArr3,
   fun _ => zeroArr3, fun _ => zeroArr3, fun _ => zeroArr2,
   zeroCoord, zeroCoord, zeroCoord⟩

/-- A dataset whose temperature at time t and cell (k, j, i) is t * i, so
the one-step temperature change at cell (k, j, i) is exactly its original
longitude index i; all other fields are zero. -/
def rampOcean : OceanData :=
  ⟨fun t => ⟨34, 18, 8, fun _ _ i => (t : ℚ) * (i : ℚ)⟩,
   fun _ => zeroArr3, fun _ => zeroArr3, fun _ => zeroArr3,
   fun _ => zeroArr3, fun _ => zeroArr3, fun _ => zeroArr3,
   fun _ => zeroArr3, fun _ => zeroArr2, zeroCoord, zeroCoord, zeroCoord⟩

/-- A 1 by 4 by 4 field with pairwise distinct values 4 * j + i. -/
def gridArr : Arr3 ℚ := ⟨1, 4, 4, fun _ j i => (4 * j + i : ℚ)⟩

/-- A deterministic stand-in permutation generator: the identity
permutation at every state, advancing the state by one. -/
def identityGen : Nat → Nat → List Nat × Nat :=
  fun s n => (List.range n, s + 1)

/-- A tiny concrete training split. -/
def trEx : SplitArrays := ⟨[[1], [2], [3]], [10, 20, 30]⟩

/-- A tiny concrete validation split. -/
def valEx : SplitArrays := ⟨[[4], [5]], [40, 50]⟩

/-- A tiny concrete test split. -/
def teEx : SplitArrays := ⟨[[6]], [60]⟩

/- Helper lemmas. -/

theorem shiftWestArr3_val (A : Arr3 ℚ) (k j c : Nat) (hc : c < A.x) :
    (shiftWestArr3 A).val k j c = A.val k j ((c + A.x - 1) % A.x) := by
  have hx : 0 < A.x := lt_of_le_of_lt (Nat.zero_le c) hc
  by_cases h0 : c = 0
  · subst h0
    have h1 : (0 + A.x - 1) % A.x = A.x - 1 := by
      have h2 : 0 + A.x - 1 = A.x - 1 := by omega
      rw [h2, Nat.mod_eq_of_lt (by omega)]
    simp [shiftWestArr3, h1]
  · have h1 : (c + A.x - 1) % A.x = c - 1 := by
      have h2 : c + A.x - 1 = (c - 1) + A.x := by omega
      rw [h2, Nat.add_mod_right, Nat.mod_eq_of_lt (by omega)]
    simp [shiftWestArr3, h0, h1]

theorem shiftEastArr3_val (A : Arr3 ℚ) (k j c : Nat) (hc : c < A.x) :
    (shiftEastArr3 A).val k j c = A.val k j ((c + 1) % A.x) := by
  have hx : 0 < A.x := lt_of_le_of_lt (Nat.zero_le c) hc
  by_cases h0 : c = A.x - 1
  · subst h0
    have h1 : (A.x - 1 + 1) % A.x = 0 := by
      have h2 : A.x - 1 + 1 = A.x := by omega
      rw [h2, Nat.mod_self]
    simp [shiftEastArr3, h1]
  · have h1 : (c + 1) % A.x = c + 1 := Nat.mod_eq_of_lt (by omega)
    simp [shiftEastArr3, h0, h1]

/-- C6: for every field on the periodic longitude axis, the stencil value
read by view_as_windows on the west-shifted field (window top-left corner
at column i of the shifted frame, hence centered on original column i)
equals the stencil built directly on the unshifted field with periodic
wraparound indexing at that cell; in particular the seam-column sample
(i = 0) reads original columns x - 1, 0 and 1. -/
theorem west_shift_window_eq_periodic (A : Arr3 ℚ) (k j i f : Nat)
    (hf : f < 9) (hx : i + 2 < A.x) :
    (view_as_windows_133 (shiftWestArr3 A)).val k j i f
      = periodicStencilVal A k j i f := by
  have hm : f % 3 < 3 := Nat.mod_lt f (by omega)
  have hc : i + f % 3 < A.x := by omega
  have h1 : (view_as_windows_133 (shiftWestArr3 A)).val k j i f
      = (shiftWestArr3 A).val k (j + f / 3) (i + f % 3) := rfl
  rw [h1, shiftWestArr3_val A _ _ _ hc]
  have h2 : i + f % 3 + A.x - 1 = i + A.x - 1 + f % 3 := by omega
  rw [periodicStencilVal, h2]

theorem west_shift_window_eq_periodic_witness :
    (view_as_windows_133 (shiftWestArr3 gridArr)).val 0 0 0 0
      = periodicStencilVal gridArr 0 0 0 0 :=
  west_shift_window_eq_periodic gridArr 0 0 0 0 (by norm_num) (by decide)

/-- C3: the forecast-cell sets of the three regions, taken in original
longitude coordinates (each region's x bounds live in its own shifted
frame), are pairwise disjoint for every grid size the run accepts. -/
theorem regions_pairwise_disjoint (x_size y_size z_size : Nat)
    (hx : 4 ≤ x_size) :
    (∀ z y x, ¬(inRegion1 x_size y_size z_size z y x ∧
      inRegion2 x_size z y x)) ∧
    (∀ z y x, ¬(inRegion1 x_size y_size z_size z y x ∧
      inRegion3 x_size z y x)) ∧
    (∀ z y x, ¬(inRegion2 x_size z y x ∧ inRegion3 x_size z y x)) := by
  refine ⟨?_, ?_, ?_⟩
  · intro z y x h
    simp only [inRegion1, inRegion2, x_lw_1, x_up_1, y_lw_1, y_up_1, z_lw_1,
      z_up_1, x_lw_2, x_up_2, y_lw_2, y_up_2, z_lw_2, z_up_2] at h
    obtain ⟨⟨_, _, _, _, hx1, _⟩, ⟨_, _, _, _, c, hc1, hc2, hxeq⟩⟩ := h
    have hc : c = 1 := by omega
    subst hc
    have h1 : (1 + x_size - 1) % x_size = 0 := by
      have h2 : 1 + x_size - 1 = x_size := by omega
      rw [h2, Nat.mod_self]
    rw [h1] at hxeq
    omega
  · intro z y x h
    simp only [inRegion1, inRegion3, x_lw_1, x_up_1, y_lw_1, y_up_1, z_lw_1,
      z_up_1, x_lw_3, x_up_3, y_lw_3, y_up_3, z_lw_3, z_up_3] at h
    obtain ⟨⟨_, _, _, _, _, hx2⟩, ⟨_, _, _, _, c, hc1, hc2, hxeq⟩⟩ := h
    have hlt : c + 1 < x_size := by omega
    rw [Nat.mod_eq_of_lt hlt] at hxeq
    omega
  · intro z y x h
    simp only [inRegion2, inRegion3, x_lw_2, x_up_2, y_lw_2, y_up_2, z_lw_2,
      z_up_2, x_lw_3, x_up_3, y_lw_3, y_up_3, z_lw_3, z_up_3] at h
    obtain ⟨⟨_, _, _, _, c, hc1, hc2, hxeq⟩,
      ⟨_, _, _, _, c2, hd1, hd2, hxeq2⟩⟩ := h
    have hc : c = 1 := by omega
    subst hc
    have h1 : (1 + x_size - 1) % x_size = 0 := by
      have h2 : 1 + x_size - 1 = x_size := by omega
      rw [h2, Nat.mod_self]
    rw [h1] at hxeq
    have hlt : c2 + 1 < x_size := by omega
    rw [Nat.mod_eq_of_lt hlt] at hxeq2
    omega

theorem regions_pairwise_disjoint_witness :
    ¬(inRegion1 8 20 34 1 1 1 ∧ inRegion2 8 1 1 1) :=
  (regions_pairwise_disjoint 8 20 34 (by norm_num)).1 1 1 1

/-- C8: a dimension outside 2 and 3 makes GetInputs abort without
returning an input array (the source prints an error and every
continuation raises on the unassigned locals). -/
theorem getinputs_invalid_dimension (run_vars : RunVars)
    (h2 : run_vars.dimension ≠ 2) (h3 : run_vars.dimension ≠ 3)
    (Temp Sal U V Kwx Kwy Kwz dns : Arr3 ℚ) (Eta : Arr2 ℚ)
    (lat lon depth : Coord1) :
    GetInputs run_vars Temp Sal U V Kwx Kwy Kwz dns Eta lat lon depth
      = none := by
  simp [GetInputs, h2, h3]

theorem getinputs_invalid_dimension_witness :
    GetInputs rvDim4 zeroArr3 zeroArr3 zeroArr3 zeroArr3 zeroArr3 zeroArr3
      zeroArr3 zeroArr3 zeroArr2 zeroCoord zeroCoord zeroCoord = none :=
  getinputs_invalid_dimension rvDim4 (by decide) (by decide) zeroArr3
    zeroArr3 zeroArr3 zeroArr3 zeroArr3 zeroArr3 zeroArr3 zeroArr3 zeroArr2
    zeroCoord zeroCoord zeroCoord

/-- C7: normalise_data computes exactly one mean and one population
standard deviation, from the train array alone, applies the transform
x minus mean over std to all three splits, and neither the returned
statistics nor the normalised train array depend on the val or test
arrays. -/
theorem normalise_data_train_only (train val test val2 test2 : List ℝ) :
    (normalise_data train val test).train_mean = np_mean train ∧
    (normalise_data train val test).train_std = np_std train ∧
    (normalise_data train val test).norm_train
      = train.map (fun x => (x - np_mean train) / np_std train) ∧
    (normalise_data train val test).norm_val
      = val.map (fun x => (x - np_mean train) / np_std train) ∧
    (normalise_data train val test).norm_test
      = test.map (fun x => (x - np_mean train) / np_std train) ∧
    (normalise_data train val test).train_mean
      = (normalise_data train val2 test2).train_mean ∧
    (normalise_data train val test).train_std
      = (normalise_data train val2 test2).train_std ∧
    (normalise_data train val test).norm_train
      = (normalise_data train val2 test2).norm_train :=
  ⟨rfl, rfl, rfl, rfl, rfl, rfl, rfl, rfl⟩

/-- C9: when the training standard deviation is nonzero, the inverse
affine transform y times std plus mean recovers each of the three
original arrays exactly. -/
theorem normalise_data_round_trip (train val test : List ℝ)
    (h : np_std train ≠ 0) :
    ((normalise_data train val test).norm_train.map
      (fun y => y * (normalise_data train val test).train_std
        + (normalise_data train val test).train_mean) = train) ∧
    ((normalise_data train val test).norm_val.map
      (fun y => y * (normalise_data train val test).train_std
        + (normalise_data train val test).train_mean) = val) ∧
    ((normalise_data train val test).norm_test.map
      (fun y => y * (normalise_data train val test).train_std
        + (normalise_data train val test).train_mean) = test) := by
  have key : ∀ xs : List ℝ,
      (xs.map (fun x => (x - np_mean train) / np_std train)).map
        (fun y => y * np_std train + np_mean train) = xs := by
    intro xs
    have hgf : (fun y : ℝ => y * np_std train + np_mean train) ∘
        (fun x : ℝ => (x - np_mean train) / np_std train) = id := by
      funext x
      simp only [Function.comp_apply, id_eq]
      rw [div_mul_cancel₀ _ h, sub_add_cancel]
    rw [List.map_map, hgf, List.map_id]
  exact ⟨key train, key val, key test⟩

theorem normalise_data_round_trip_witness :
    (normalise_data [(0 : ℝ), 2] [3] [4]).norm_train.map
      (fun y => y * (normalise_data [(0 : ℝ), 2] [3] [4]).train_std
        + (normalise_data [(0 : ℝ), 2] [3] [4]).train_mean) = [0, 2] := by
  have hm : np_mean [(0 : ℝ), 2] = 1 := by
    norm_num [np_mean]
  have hs : np_std [(0 : ℝ), 2] = 1 := by
    have hlist : ([(0 : ℝ), 2].map (fun x => (x - np_mean [(0 : ℝ), 2]) ^ 2))
        = [1, 1] := by
      rw [hm]; norm_num
    rw [np_std, hlist]
    have hm2 : np_mean [(1 : ℝ), 1] = 1 := by norm_num [np_mean]
    rw [hm2, Real.sqrt_one]
  exact (normalise_data_round_trip [0, 2] [3] [4]
    (by rw [hs]; norm_num)).1

theorem filterMap_getElem_range {α : Type} (xs : List α) :
    (List.range xs.length).filterMap (fun i => xs[i]?) = xs := by
  induction xs with
  | nil => simp
  | cons a xs ih =>
    rw [List.length_cons, List.range_succ_eq_map]
    rw [List.filterMap_cons]
    simp only [List.getElem?_cons_zero, List.filterMap_map]
    have h1 : ((fun i => (a :: xs)[i]?) ∘ Nat.succ) = fun i => xs[i]? := by
      funext i
      simp
    rw [h1, ih]

theorem applyOrdering_perm {α : Type} (xs : List α) (ord : List Nat)
    (h : ord.Perm (List.range xs.length)) :
    (applyOrdering xs ord).Perm xs := by
  have h1 : (applyOrdering xs ord).Perm
      (applyOrdering xs (List.range xs.length)) :=
    List.Perm.filterMap _ h
  have h2 : applyOrdering xs (List.range xs.length) = xs :=
    filterMap_getElem_range xs
  rw [h2] at h1
  exact h1

/-- C10: the shuffle draws one permutation per split after the fixed
np.random.seed(5) reset (so the result is independent of the RNG state the
program had before), and applies each permutation only to its own split:
every shuffled split is a reordering of that split's own pre-shuffle rows,
and two runs on identical inputs produce identical results. -/
theorem shuffle_split_local_deterministic (g : Nat → Nat → List Nat × Nat)
    (s1 s2 : Nat) (tr val te : SplitArrays)
    (hg : ∀ s n, ((g s n).1).Perm (List.range n)) :
    randomiseOrder g s1 tr val te = randomiseOrder g s2 tr val te ∧
    ((randomiseOrder g s1 tr val te).1.inputs).Perm tr.inputs ∧
    ((randomiseOrder g s1 tr val te).2.1.inputs).Perm val.inputs ∧
    ((randomiseOrder g s1 tr val te).2.2.inputs).Perm te.inputs := by
  refine ⟨rfl, ?_, ?_, ?_⟩ <;> exact applyOrdering_perm _ _ (hg _ _)

theorem shuffle_split_local_deterministic_witness :
    (randomiseOrder identityGen 0 trEx valEx teEx
      = randomiseOrder identityGen 7 trEx valEx teEx) ∧
    ((randomiseOrder identityGen 0 trEx valEx teEx).1.inputs).Perm
      trEx.inputs :=
  ⟨(shuffle_split_local_deterministic identityGen 0 7 trEx valEx teEx
      (fun _ n => List.Perm.refl (List.range n))).1,
   (shuffle_split_local_deterministic identityGen 0 7 trEx valEx teEx
      (fun _ n => List.Perm.refl (List.range n))).2.1⟩

/-- C1 (code bug): the region-2 target is not taken at the cells the
region-2 input stencils are centered on.  The first region-2 sample's
input stencil is centered (in original longitude coordinates) on cell
(1, 1, 0), but the target block, sliced from the unshifted temperature
field at the shifted-frame bounds, reads cell (1, 1, 1); on a field whose
one-step change at cell (k, j, i) is i, the code's target value 1 differs
from the change 0 at the input's own cell. -/
theorem region2_target_misaligned :
    (∀ (d : OceanData) (StepSize t : Nat),
      (outputs_2_DelT d StepSize t).val 0 0
        = (d.T (t + StepSize)).val 1 1 1 - (d.T t).val 1 1 1) ∧
    (∀ (d : OceanData) (t : Nat),
      (inputs_2 rvTempOnly d t).map (fun M => M.val 0 4)
        = some ((d.T t).val 1 1 0)) ∧
    ((outputs_2_DelT rampOcean 1 0).val 0 0
      ≠ (rampOcean.T 1).val 1 1 0 - (rampOcean.T 0).val 1 1 0) := by
  refine ⟨?_, ?_, ?_⟩
  · intro d StepSize t
    simp [outputs_2_DelT, outputs_DelT_region, reshapeCol, sub3, slice3,
      z_lw_2, z_up_2, y_lw_2, y_up_2, x_lw_2, x_up_2]
  · intro d t
    simp [inputs_2, inputs_region, westShifted, GetInputs, addExtras,
      reshapeRows, view_as_windows_133, slice3, shiftWestArr3, rvTempOnly,
      hconcat, z_lw_2, z_up_2, y_lw_2, y_up_2, x_lw_2, x_up_2]
  · have h1 : (outputs_2_DelT rampOcean 1 0).val 0 0 = 1 := by
      simp [outputs_2_DelT, outputs_DelT_region, reshapeCol, sub3, slice3,
        rampOcean, z_lw_2, z_up_2, y_lw_2, y_up_2, x_lw_2, x_up_2]
    have h2 : (rampOcean.T 1).val 1 1 0 - (rampOcean.T 0).val 1 1 0 = 0 := by
      simp [rampOcean]
    rw [h1, h2]
    norm_num

/-- C2 (code bug): the training loop indexes the pair-subsampled dataset
directly by loop position, so its samples do not correspond to the
splitter's (t, t + StepSize) pairs.  At loop index 1 the input is original
time 1 (not a splitter index) and the target spans original times 1 to
200, not a single step; and the last loop index 25 reads original time
2401, so splitter times beyond 2401 (such as 5000) are never used as
training inputs. -/
theorem train_loop_reads_unsplit_times :
    (1 ∈ train_loop_indices) ∧
    (25 ∈ train_loop_indices) ∧
    sample_times_flat[1]? = some 1 ∧
    sample_times_flat[2]? = some 200 ∧
    (1 ∉ trainval_range) ∧
    ((200 : Nat) ≠ 1 + 1) ∧
    trainval_range.length = 26 ∧
    sample_times_flat[25]? = some 2401 ∧
    (2401 ∉ trainval_range) := by decide

/-- C4 counterexample: with the configured boundaries (start 0, ratios 0.7
and 0.9 of 7200, stride 200) the union of the three splitter ranges is not
the single strided range over the whole usable length: 5040 is produced by
the splitter but is not in range(0, 7200, 200), and 5200 is in
range(0, 7200, 200) but is never produced. -/
theorem splitter_union_not_strided_range :
    (5040 ∈ full_range) ∧
    (5040 ∉ rangeStep start data_end_index subsample_rate) ∧
    (5200 ∈ rangeStep start data_end_index subsample_rate) ∧
    (5200 ∉ full_range) := by decide

theorem mem_rangeStep {a b s x : Nat} (hs : 0 < s) :
    x ∈ rangeStep a b s ↔ a ≤ x ∧ x < b ∧ s ∣ x - a := by
  simp only [rangeStep, List.mem_map, List.mem_range]
  constructor
  · rintro ⟨k, hk, rfl⟩
    have hk1 : k + 1 ≤ (b - a + s - 1) / s := hk
    have hk2 : (k + 1) * s ≤ b - a + s - 1 :=
      (Nat.le_div_iff_mul_le hs).mp hk1
    have hk3 : k * s + s ≤ b - a + s - 1 := by
      calc k * s + s = (k + 1) * s := by ring
        _ ≤ b - a + s - 1 := hk2
    have hmc : s * k = k * s := Nat.mul_comm s k
    refine ⟨Nat.le_add_right a (s * k), by omega, ?_⟩
    have h4 : a + s * k - a = s * k := by omega
    rw [h4]
    exact ⟨k, rfl⟩
  · rintro ⟨hax, hxb, c, hc⟩
    refine ⟨c, ?_, by omega⟩
    have h5 : (c + 1) * s = s * c + s := by ring
    have h6 : (c + 1) * s ≤ b - a + s - 1 := by omega
    have h7 : c + 1 ≤ (b - a + s - 1) / s :=
      (Nat.le_div_iff_mul_le hs).mpr h6
    omega

/-- C4 (amended): for every ordered boundary configuration, the three
splitter ranges are pairwise disjoint and every train index is below
every validation index and every validation index below every test index
(unconditionally, in particular for the configured boundaries 0, 5040,
6480, 7200 with stride 200); their union equals the single strided range
over the whole usable length exactly under the additional premise that
the two split boundaries are aligned to the stride (the stride divides
boundary1 - start and boundary2 - boundary1), a premise the configured
first boundary 5040 violates, and there the union differs from
range(0, 7200, 200). -/
theorem splitter_ranges_partition (a b1 b2 e s : Nat) (hs : 0 < s)
    (h1 : a ≤ b1) (h2 : b1 ≤ b2) (h3 : b2 ≤ e) :
    (∀ x ∈ rangeStep a b1 s, ∀ y ∈ rangeStep b1 b2 s, x < y) ∧
    (∀ x ∈ rangeStep b1 b2 s, ∀ y ∈ rangeStep b2 e s, x < y) ∧
    (∀ x, ¬(x ∈ rangeStep a b1 s ∧ x ∈ rangeStep b1 b2 s)) ∧
    (∀ x, ¬(x ∈ rangeStep a b1 s ∧ x ∈ rangeStep b2 e s)) ∧
    (∀ x, ¬(x ∈ rangeStep b1 b2 s ∧ x ∈ rangeStep b2 e s)) ∧
    (s ∣ b1 - a → s ∣ b2 - b1 →
      ∀ x, (x ∈ rangeStep a b1 s ∨ x ∈ rangeStep b1 b2 s ∨
        x ∈ rangeStep b2 e s) ↔ x ∈ rangeStep a e s) := by
  refine ⟨?_, ?_, ?_, ?_, ?_, fun d1 d2 => ?_⟩
  · intro x hx y hy
    rw [mem_rangeStep hs] at hx hy
    omega
  · intro x hx y hy
    rw [mem_rangeStep hs] at hx hy
    omega
  · intro x hmem
    rw [mem_rangeStep hs, mem_rangeStep hs] at hmem
    omega
  · intro x hmem
    rw [mem_rangeStep hs, mem_rangeStep hs] at hmem
    omega
  · intro x hmem
    rw [mem_rangeStep hs, mem_rangeStep hs] at hmem
    omega
  · intro x
    rw [mem_rangeStep hs, mem_rangeStep hs, mem_rangeStep hs,
      mem_rangeStep hs]
    constructor
    · rintro (⟨hax, hxb, hd⟩ | ⟨hax, hxb, hd⟩ | ⟨hax, hxb, hd⟩)
      · exact ⟨hax, by omega, hd⟩
      · refine ⟨by omega, by omega, ?_⟩
        have hsum : x - a = (x - b1) + (b1 - a) := by omega
        rw [hsum]
        exact Nat.dvd_add hd d1
      · refine ⟨by omega, by omega, ?_⟩
        have hsum : x - a = (x - b2) + (b2 - b1) + (b1 - a) := by omega
        rw [hsum]
        exact Nat.dvd_add (Nat.dvd_add hd d2) d1
    · rintro ⟨hax, hxe, hd⟩
      by_cases hb1 : x < b1
      · exact Or.inl ⟨hax, hb1, hd⟩
      · by_cases hb2 : x < b2
        · refine Or.inr (Or.inl ⟨by omega, hb2, ?_⟩)
          have hsub : x - b1 = (x - a) - (b1 - a) := by omega
          rw [hsub]
          exact Nat.dvd_sub' hd d1
        · refine Or.inr (Or.inr ⟨by omega, by omega, ?_⟩)
          have hsub : x - b2 = (x - a) - (b1 - a) - (b2 - b1) := by omega
          rw [hsub]
          exact Nat.dvd_sub' (Nat.dvd_sub' hd d1) d2

theorem splitter_ranges_partition_witness :
    ¬(5040 ∈ rangeStep start trainval_split subsample_rate ∧
      5040 ∈ rangeStep trainval_split valtest_split subsample_rate) :=
  (splitter_ranges_partition start trainval_split valtest_split
    data_end_index subsample_rate (by decide) (by decide) (by decide)
    (by decide)).2.2.1 5040

theorem mul3_congr {a b c a2 b2 c2 : Nat} (h1 : a = a2) (h2 : b = b2)
    (h3 : c = c2) : a * b * c = a2 * b2 * c2 := by rw [h1, h2, h3]

theorem getInputs_dim2_rows (rv : RunVars) (h2 : rv.dimension = 2)
    (hp : rv.poly_degree = 1)
    (Temp Sal U V Kwx Kwy Kwz dns : Arr3 ℚ) (Eta : Arr2 ℚ)
    (lat lon depth : Coord1) :
    (GetInputs rv Temp Sal U V Kwx Kwy Kwz dns Eta lat lon depth).map
      (fun M => M.rows) = some (Temp.z * (Temp.y - 2) * (Temp.x - 2)) := by
  simp [GetInputs, h2, hp, addExtras, reshapeRows]

theorem getInputs_dim3_rows (rv : RunVars) (h3 : rv.dimension = 3)
    (hp : rv.poly_degree = 1)
    (Temp Sal U V Kwx Kwy Kwz dns : Arr3 ℚ) (Eta : Arr2 ℚ)
    (lat lon depth : Coord1) :
    (GetInputs rv Temp Sal U V Kwx Kwy Kwz dns Eta lat lon depth).map
      (fun M => M.rows)
      = some ((Temp.z - 2) * (Temp.y - 2) * (Temp.x - 2)) := by
  simp [GetInputs, h3, hp, addExtras, reshapeRows]

theorem getInputs_dim2_cols (rv : RunVars) (h2 : rv.dimension = 2)
    (hp : rv.poly_degree = 1)
    (Temp Sal U V Kwx Kwy Kwz dns : Arr3 ℚ) (Eta : Arr2 ℚ)
    (lat lon depth : Coord1) :
    (GetInputs rv Temp Sal U V Kwx Kwy Kwz dns Eta lat lon depth).map
      (fun M => M.cols) = some (featureCount rv) := by
  obtain ⟨dim, sal, cur, bol, dn, et, la, lo, de, pd, st⟩ := rv
  obtain rfl : dim = 2 := h2
  obtain rfl : pd = 1 := hp
  cases sal <;> cases cur <;> cases bol <;> cases dn <;> cases et <;>
    cases la <;> cases lo <;> cases de <;> rfl

theorem getInputs_dim3_cols (rv : RunVars) (h3 : rv.dimension = 3)
    (hp : rv.poly_degree = 1)
    (Temp Sal U V Kwx Kwy Kwz dns : Arr3 ℚ) (Eta : Arr2 ℚ)
    (lat lon depth : Coord1) :
    (GetInputs rv Temp Sal U V Kwx Kwy Kwz dns Eta lat lon depth).map
      (fun M => M.cols) = some (featureCount rv) := by
  obtain ⟨dim, sal, cur, bol, dn, et, la, lo, de, pd, st⟩ := rv
  obtain rfl : dim = 3 := h3
  obtain rfl : pd = 1 := hp
  cases sal <;> cases cur <;> cases bol <;> cases dn <;> cases et <;>
    cases la <;> cases lo <;> cases de <;> rfl

/-- C5: for every configuration with dimension 2 or 3 and poly_degree 1,
each region's GetInputs call returns a matrix whose row count is
(z_up - z_lw) * (y_up - y_lw) * (x_up - x_lw) for that region's bounds,
and whose column count is the stencil volume (9 for dimension 2, 27 for
dimension 3) times the number of enabled physical fields, plus 9 when eta
is enabled, plus one per enabled coordinate; the column count is the same
for all three regions and all timesteps of one run. -/
theorem region_inputs_shape (rv : RunVars)
    (hdim : rv.dimension = 2 ∨ rv.dimension = 3) (hp : rv.poly_degree = 1)
    (d : OceanData) (t x_size y_size z_size : Nat) (hx : 4 ≤ x_size) :
    ((inputs_1 rv d z_size y_size x_size t).map (fun M => M.rows)
      = some ((z_up_1 z_size - z_lw_1) * (y_up_1 y_size - y_lw_1) *
        (x_up_1 x_size - x_lw_1))) ∧
    ((inputs_2 rv d t).map (fun M => M.rows)
      = some ((z_up_2 - z_lw_2) * (y_up_2 - y_lw_2) * (x_up_2 - x_lw_2))) ∧
    ((inputs_3 rv d x_size t).map (fun M => M.rows)
      = some ((z_up_3 - z_lw_3) * (y_up_3 - y_lw_3) *
        (x_up_3 x_size - x_lw_3 x_size))) ∧
    ((inputs_1 rv d z_size y_size x_size t).map (fun M => M.cols)
      = some (featureCount rv)) ∧
    ((inputs_2 rv d t).map (fun M => M.cols) = some (featureCount rv)) ∧
    ((inputs_3 rv d x_size t).map (fun M => M.cols)
      = some (featureCount rv)) := by
  rcases hdim with h2 | h3
  · refine ⟨?_, ?_, ?_, ?_, ?_, ?_⟩
    · simp only [inputs_1, inputs_region, h2, reduceIte]
      rw [getInputs_dim2_rows rv h2 hp]
      simp only [slice3, z_lw_1, z_up_1, y_lw_1, y_up_1, x_lw_1, x_up_1]
      exact congrArg some (mul3_congr (by omega) (by omega) (by omega))
    · simp only [inputs_2, inputs_region, h2, reduceIte]
      rw [getInputs_dim2_rows rv h2 hp]
      simp [slice3, z_lw_2, z_up_2, y_lw_2, y_up_2, x_lw_2, x_up_2]
    · simp only [inputs_3, inputs_region, h2, reduceIte]
      rw [getInputs_dim2_rows rv h2 hp]
      simp only [slice3, z_lw_3, z_up_3, y_lw_3, y_up_3, x_lw_3, x_up_3]
      exact congrArg some (mul3_congr (by omega) (by omega) (by omega))
    · simp only [inputs_1, inputs_region, h2, reduceIte]
      exact getInputs_dim2_cols rv h2 hp _ _ _ _ _ _ _ _ _ _ _ _
    · simp only [inputs_2, inputs_region, h2, reduceIte]
      exact getInputs_dim2_cols rv h2 hp _ _ _ _ _ _ _ _ _ _ _ _
    · simp only [inputs_3, inputs_region, h2, reduceIte]
      exact getInputs_dim2_cols rv h2 hp _ _ _ _ _ _ _ _ _ _ _ _
  · refine ⟨?_, ?_, ?_, ?_, ?_, ?_⟩
    · simp only [inputs_1, inputs_region, h3, Nat.reduceEqDiff, reduceIte]
      rw [getInputs_dim3_rows rv h3 hp]
      simp only [slice3, z_lw_1, z_up_1, y_lw_1, y_up_1, x_lw_1, x_up_1]
      exact congrArg some (mul3_congr (by omega) (by omega) (by omega))
    · simp only [inputs_2, inputs_region, h3, Nat.reduceEqDiff, reduceIte]
      rw [getInputs_dim3_rows rv h3 hp]
      simp [slice3, z_lw_2, z_up_2, y_lw_2, y_up_2, x_lw_2, x_up_2]
    · simp only [inputs_3, inputs_region, h3, Nat.reduceEqDiff, reduceIte]
      rw [getInputs_dim3_rows rv h3 hp]
      simp only [slice3, z_lw_3, z_up_3, y_lw_3, y_up_3, x_lw_3, x_up_3]
      exact congrArg some (mul3_congr (by omega) (by omega) (by omega))
    · simp only [inputs_1, inputs_region, h3, Nat.reduceEqDiff, reduceIte]
      exact getInputs_dim3_cols rv h3 hp _ _ _ _ _ _ _ _ _ _ _ _
    · simp only [inputs_2, inputs_region, h3, Nat.reduceEqDiff, reduceIte]
      exact getInputs_dim3_cols rv h3 hp _ _ _ _ _ _ _ _ _ _ _ _
    · simp only [inputs_3, inputs_region, h3, Nat.reduceEqDiff, reduceIte]
      exact getInputs_dim3_cols rv h3 hp _ _ _ _ _ _ _ _ _ _ _ _

theorem region_inputs_shape_witness :
    (inputs_1 rvAll2d zeroOcean 34 18 8 0).map (fun M => M.cols)
      = some (featureCount rvAll2d) :=
  (region_inputs_shape rvAll2d (Or.inl rfl) rfl zeroOcean 0 8 18 34
    (by norm_num)).2.2.2.1
